import Mathlib

/-!
# Verification of `main.py` (janky-charuco-calibrator)

A shallow embedding of the single source file `src/main.py` of the
repository `talmolab/janky-charuco-calibrator`, together with theorems
settling the specification claims about it.

Modelling conventions:

* A `Frame` is the flattened list of pixel sample values of an image
  (`img.flatten()` in the source); pixel samples are modelled as rationals.
* External library calls (OpenCV drawing, pylon acquisition) are modelled
  as explicit parameters (`DrawFns`) or as per-iteration inputs
  (`IterInput`), so every theorem is quantified over the behaviour of the
  external services.
* Fallible Python code is modelled with `Except PyError`.
* Python name resolution for the module-level imports of `main.py` is
  modelled explicitly (`mainImports`), because `main.py` references the
  name `np` without ever importing numpy.
-/

/-- Errors a `main.py` code path can raise.  `valueError` carries the
message string built at the raise site; `nameError` carries the unbound
name; `indexError` models indexing an empty array; `typeError` models
applying `int()` to `None`. -/
inductive PyError where
  | valueError (msg : String)
  | nameError (name : String)
  | indexError
  | typeError
deriving DecidableEq, Repr

/-- A frame, as the flattened list of its pixel samples
(`img.flatten()` flattens across channels and spatial dimensions). -/
abbrev Frame := List ℚ

/-- A 2-D point in pixel space (a charuco corner coordinate). -/
abbrev Point := ℚ × ℚ

/-- Device information as returned by `tl_factory.EnumerateDevices()`;
only the serial number (`device.GetSerialNumber()`) is observed by
`main.py`. -/
structure DeviceInfo where
  serial : String
deriving DecidableEq, Repr

/-- A camera handle, `pylon.InstantCamera(tl_factory.CreateDevice(device))`. -/
structure InstantCamera where
  device : DeviceInfo
deriving DecidableEq, Repr

/-- `select_camera_by_serial` (main.py lines 6-21), for a given device
enumeration.  Python's `if serial_number:` is truthiness: it is `False`
both for `None` and for the empty string, so both fall into the
else-branch (lines 17-21), modelled by `firstAvailableCamera`. -/
def firstAvailableCamera (devices : List DeviceInfo) : Except PyError InstantCamera :=
  match devices with
  | [] => .error (.valueError "No cameras found.")
  | d :: _ => .ok (InstantCamera.mk d)

/-- `select_camera_by_serial` (main.py lines 6-21).  With a truthy
(non-empty) serial: linear search over the enumeration for an exact
serial match (lines 13-15), raising `ValueError` when no device matches
(line 16).  Otherwise: the else-branch, lines 17-21. -/
def select_camera_by_serial (devices : List DeviceInfo) (serial_number : Option String) :
    Except PyError InstantCamera :=
  match serial_number with
  | some sn =>
    if sn = "" then firstAvailableCamera devices
    else
      match devices.find? (fun d => d.serial = sn) with
      | some d => .ok (InstantCamera.mk d)
      | none => .error (.valueError ("Camera with serial number " ++ sn ++ " not found."))
  | none => firstAvailableCamera devices

/-- The observable outputs of the OpenCV aruco calls made by
`detect_charuco_board` on a given frame: `ids` is the second component of
`cv2.aruco.detectMarkers` (line 67, `None` or an array of marker ids), and
`charucoCorners` / `charucoIds` are the second and third components of
`cv2.aruco.interpolateCornersCharuco` (line 72).  Each entry of
`charucoCorners` models the point `charuco_corners[i][0]` (the rows of
the returned array have shape 1 x 2).  The marker corner and rejected
candidate arrays of line 67 are threaded through to lines 71-72 unchanged
and never otherwise observed, so they are not modelled.  Note the return
value of `cv2.aruco.refineDetectedMarkers` (line 71) is discarded by the
source, so that call has no effect on the local variables. -/
structure DetectOracle where
  ids : Option (List ℕ)
  charucoCorners : Option (List Point)
  charucoIds : Option (List ℕ)
deriving DecidableEq, Repr

/-- The OpenCV drawing primitives used by `main.py`, as frame
transformers.  `cv2.aruco.drawDetectedCornersCharuco(img, corners, ids)`
and `cv2.putText(img, text, org, ...)` mutate `img` in place; in the
embedding each produces a new frame value, and the font/colour/thickness
arguments (which no claim observes) are not modelled. -/
structure DrawFns where
  drawDetectedCornersCharuco : Frame → List Point → List ℕ → Frame
  putText : Frame → String → Int × Int → Frame

/-- `detect_charuco_board` (main.py lines 24-84).  Lines 33-63 only
configure the external detector (board geometry and tuning parameters);
its observable outputs are supplied by the `DetectOracle`.  Line 70
guards on `ids is not None and len(ids) > 0`; line 74 on
`charuco_corners is not None and charuco_ids is not None and
len(charuco_ids) > 0`; line 76 draws the detected corners onto `img`;
lines 79-80 take `charuco_corners[0][0]` and `charuco_corners[-1][0]`
(raising `IndexError` if the corner array were empty). -/
def detect_charuco_board (draw : DrawFns) (img : Frame) (o : DetectOracle) :
    Except PyError (Frame × Option Point × Option Point × Bool) :=
  match o.ids with
  | some ids =>
    if ids.length > 0 then
      match o.charucoCorners, o.charucoIds with
      | some charuco_corners, some charuco_ids =>
        if charuco_ids.length > 0 then
          match charuco_corners with
          | [] => .error .indexError
          | c0 :: rest =>
            let img1 := draw.drawDetectedCornersCharuco img charuco_corners charuco_ids
            .ok (img1, some c0, some ((c0 :: rest).getLast (List.cons_ne_nil c0 rest)), true)
        else .ok (img, none, none, false)
      | _, _ => .ok (img, none, none, false)
    else .ok (img, none, none, false)
  | none => .ok (img, none, none, false)

/-- The module-level imports of `main.py` (lines 1-3): `import cv2`,
`from pypylon import pylon`, `import sys`.  The name `np` is never
imported, although line 120 references it. -/
def mainImports : List String := ["cv2", "pylon", "sys"]

/-- The name environment of `main.py` as it was evidently intended,
with the missing `import numpy as np` present. -/
def intendedImports : List String := "np" :: mainImports

/-- Linear-interpolation kernel of `numpy.percentile` (the default
`interpolation='linear'` method): at fractional index `x` into the
ascending-sorted samples `s`, the value is
`s[floor x] + (x - floor x) * (s[floor x + 1] - s[floor x])`.
Out-of-range reads only occur multiplied by a zero fractional part, so
they are harmless and are given the default `0`. -/
def interpAt (s : List ℚ) (x : ℚ) : ℚ :=
  s.getD (⌊x⌋).toNat 0 +
    (x - ((⌊x⌋ : ℤ) : ℚ)) * (s.getD ((⌊x⌋).toNat + 1) 0 - s.getD (⌊x⌋).toNat 0)

/-- `np.percentile(a, q)` with the default linear interpolation, as
invoked on the flattened frame at main.py lines 120-122: sort the samples
ascending and linearly interpolate at fractional index
`q / 100 * (len(a) - 1)`. -/
def np_percentile (q : ℚ) (a : List ℚ) : ℚ :=
  interpAt (List.insertionSort (fun x y => x ≤ y) a) (q / 100 * ((a.length : ℚ) - 1))

/-- The illumination statistics step, main.py lines 120-122.  The step
first resolves the module-level name `np`; `main.py` never imports it
(see `mainImports`), so on the source as written this step raises
`NameError` on every frame. -/
def illuminationStep (env : List String) (img : Frame) : Except PyError (ℚ × ℚ × ℚ) :=
  if "np" ∈ env then
    .ok (np_percentile 5 img, np_percentile 50 img, np_percentile 95 img)
  else .error (.nameError "np")

/-- Python `int()` applied to a rational coordinate: truncation toward
zero, as in `int(top_left[0])` (main.py lines 128-134). -/
def pyInt (x : ℚ) : Int := Int.tdiv x.num (x.den : Int)

/-- One decimal place formatting, modelling the `:.1f` format specifier
of the f-string at main.py line 123 (binary-float tie-breaking details of
CPython are not observed by any claim). -/
def fmt1 (x : ℚ) : String :=
  let t : ℤ := ⌊10 * x + 1 / 2⌋
  toString (t / 10) ++ "." ++ toString (t % 10)

/-- The illumination overlay text of main.py line 123. -/
def illuminationText (prc5 prc50 prc95 : ℚ) : String :=
  "5% / 50% / 95%: " ++ fmt1 prc5 ++ " / " ++ fmt1 prc50 ++ " / " ++ fmt1 prc95

/-- Externally observable side effects of one pass through the capture
loop body (main.py lines 104-162). -/
inductive Effect where
  | imshow (title : String) (img : Frame)
  | imwrite (filename : String) (img : Frame)
  | printed (msg : String)
  | release
  | stopGrabbing
  | destroyAllWindows
deriving DecidableEq, Repr

/-- The per-iteration inputs delivered by the external services:
`grabOk` is `grabResult.GrabSucceeded()` (line 108); `frame` is the
converted image `converter.Convert(grabResult).GetArray()` (lines
110-111, meaningful only when `grabOk`); `oracle` is the vision-service
behaviour on this frame; `key1` and `key2` are the return values of the
two `cv2.waitKey(1)` calls of lines 143 and 145 (`-1` when no key is
pressed within the poll interval). -/
structure IterInput where
  grabOk : Bool
  frame : Frame
  oracle : DetectOracle
  key1 : Int
  key2 : Int
deriving Repr

/-- Python's bitwise `&` on (unbounded, two's-complement) integers.
`Int.negSucc m` has the bit pattern of the complement of `m`, so
`a & b` on mixed signs is a bitwise set difference, computed here as
`m AND NOT n = m XOR (m AND n)`; `pyAnd_eq_land` below validates the
definition against Mathlib's `Int.land`. -/
def pyAnd (a b : Int) : Int :=
  match a, b with
  | .ofNat m, .ofNat n => .ofNat (m &&& n)
  | .ofNat m, .negSucc n => .ofNat (m ^^^ (m &&& n))
  | .negSucc m, .ofNat n => .ofNat (n ^^^ (n &&& m))
  | .negSucc m, .negSucc n => .negSucc (m ||| n)

lemma ldiff_as_xor (m n : ℕ) : m ^^^ (m &&& n) = Nat.ldiff m n := by
  apply Nat.eq_of_testBit_eq
  intro k
  simp only [Nat.testBit_xor, Nat.testBit_land, Nat.testBit_ldiff]
  cases m.testBit k <;> cases n.testBit k <;> rfl

lemma pyAnd_eq_land (a b : Int) : pyAnd a b = Int.land a b := by
  cases a <;> cases b <;> simp only [pyAnd, Int.land, ldiff_as_xor] <;> rfl

/-- `ord('q')`. -/
def ordQ : Int := 113

/-- `ord('s')`. -/
def ordS : Int := 115

/-- Key handling and save logic, main.py lines 137-158: show the final
frame (line 140), read `key = cv2.waitKey(1) & 0xFF` (line 143), break
out of the loop when `cv2.waitKey(1) & key == ord('q')` (lines 145-146,
skipping the `grabResult.Release()` of line 158), otherwise on
`key == ord('s')` write `<serial>.raw.png` from the raw copy and, when a
board was detected this iteration, `<serial>.charuco.png` from the
annotated frame (lines 147-156), then release the grab result (line
158).  Returns the emitted effects and whether the loop breaks. -/
def keyAndSave (serial : String) (raw_img imgF : Frame) (charuco_img : Option Frame)
    (key1 key2 : Int) : List Effect × Bool :=
  let window_title := "Basler Camera " ++ serial
  let effs0 := [Effect.imshow window_title imgF]
  let key := pyAnd key1 255
  if pyAnd key2 key = ordQ then
    (effs0, true)
  else if key = ordS then
    let filename := serial ++ ".raw.png"
    let saveRaw := [Effect.imwrite filename raw_img,
                    Effect.printed ("Saved raw image to " ++ filename)]
    let saveCharuco :=
      match charuco_img with
      | some ci =>
        [Effect.imwrite (serial ++ ".charuco.png") ci,
         Effect.printed ("Saved charuco image to " ++ (serial ++ ".charuco.png"))]
      | none => []
    (effs0 ++ saveRaw ++ saveCharuco ++ [Effect.release], false)
  else
    (effs0 ++ [Effect.release], false)

/-- One iteration of the capture loop, main.py lines 105-158.
`charuco_img` is reset to `None` at line 107; on a failed grab the whole
processing block (lines 108-156) is skipped and the grab result is
released (line 158).  On success: the raw copy is taken before any
overlay (line 114), the board detector runs and may draw on the frame
(line 117), the illumination statistics are computed and drawn (lines
120-124, see `illuminationStep` for the missing `np` import), the corner
labels are drawn when a board was detected and `charuco_img` is set to
the fully annotated frame (lines 126-135), and the key handling of
`keyAndSave` follows.  `env` is the module-level name environment used
when resolving `np`. -/
def loopIter (env : List String) (serial : String) (draw : DrawFns) (inp : IterInput) :
    Except PyError (List Effect × Bool) :=
  if inp.grabOk then
    let img := inp.frame
    let raw_img := img
    match detect_charuco_board draw img inp.oracle with
    | .error e => .error e
    | .ok (img1, top_left, bottom_right, board_detected) =>
      match illuminationStep env img1 with
      | .error e => .error e
      | .ok (prc5, prc50, prc95) =>
        let img2 := draw.putText img1 (illuminationText prc5 prc50 prc95) (20, 20)
        match board_detected, top_left, bottom_right with
        | true, some tl, some br =>
          let top_left_text :=
            "Top Left: (" ++ toString (pyInt tl.1) ++ ", " ++ toString (pyInt tl.2) ++ ")"
          let bottom_right_text :=
            "Bottom Right: (" ++ toString (pyInt br.1) ++ ", " ++ toString (pyInt br.2) ++ ")"
          let img3 := draw.putText img2 top_left_text (pyInt tl.1, pyInt tl.2 - 10)
          let img4 := draw.putText img3 bottom_right_text (pyInt br.1, pyInt br.2 + 20)
          .ok (keyAndSave serial raw_img img4 (some img4) inp.key1 inp.key2)
        | true, _, _ => .error .typeError
        | false, _, _ => .ok (keyAndSave serial raw_img img2 none inp.key1 inp.key2)
  else
    .ok ([Effect.release], false)

/-- The capture loop (main.py lines 104-162) over a finite schedule of
per-iteration inputs (the schedule ending models `camera.IsGrabbing()`
turning false).  On break, and after the loop, `camera.StopGrabbing()`
and `cv2.destroyAllWindows()` run (lines 160-162); an uncaught exception
propagates out of `main` without reaching them. -/
def runLoop (env : List String) (serial : String) (draw : DrawFns) :
    List IterInput → Except PyError (List Effect)
  | [] => .ok [Effect.stopGrabbing, Effect.destroyAllWindows]
  | inp :: rest =>
    match loopIter env serial draw inp with
    | .error e => .error e
    | .ok (effs, brk) =>
      if brk then .ok (effs ++ [Effect.stopGrabbing, Effect.destroyAllWindows])
      else Except.map (fun more => effs ++ more) (runLoop env serial draw rest)

/-- Drawing functions that leave the frame unchanged (used to evaluate
the model at concrete inputs; the theorems are quantified over arbitrary
`DrawFns`). -/
def draw0 : DrawFns :=
  { drawDetectedCornersCharuco := fun img _ _ => img
    putText := fun img _ _ => img }

/-- A vision-service behaviour detecting no markers at all. -/
def oracleNone : DetectOracle :=
  { ids := none, charucoCorners := none, charucoIds := none }

/-- A vision-service behaviour finding one marker and one usable board
corner. -/
def oracleFound : DetectOracle :=
  { ids := some [0], charucoCorners := some [(1, 2)], charucoIds := some [7] }

/-- A successful grab of a one-pixel black frame with the q key in the
first poll and second poll result `k2`. -/
def inpQ (k2 : Int) : IterInput :=
  { grabOk := true, frame := [0], oracle := oracleNone, key1 := 113, key2 := k2 }

/-! ## Order theory of the percentile computation -/

lemma sorted_getD_le (s : List ℚ) (hs : List.Sorted (fun x y => x ≤ y) s)
    {i j : ℕ} (hij : i ≤ j) (hj : j < s.length) :
    s.getD i 0 ≤ s.getD j 0 := by
  have hi : i < s.length := lt_of_le_of_lt hij hj
  rw [List.getD_eq_getElem s 0 hi, List.getD_eq_getElem s 0 hj]
  have h := hs.rel_get_of_le (a := ⟨i, hi⟩) (b := ⟨j, hj⟩) hij
  simpa using h

lemma interpAt_le_interpAt {s : List ℚ} (hs : List.Sorted (fun x y => x ≤ y) s)
    {p q : ℚ} (hp : 0 ≤ p) (hpq : p ≤ q) (hq : q ≤ (s.length : ℚ) - 1) :
    interpAt s p ≤ interpAt s q := by
  have h0q : 0 ≤ q := le_trans hp hpq
  simp only [interpAt]
  set n := s.length with hn
  set fp := ⌊p⌋ with hfp
  set fq := ⌊q⌋ with hfq
  have hfp0 : (0 : ℤ) ≤ fp := by rw [hfp]; exact Int.le_floor.mpr (by exact_mod_cast hp)
  have hfq0 : (0 : ℤ) ≤ fq := by rw [hfq]; exact Int.le_floor.mpr (by exact_mod_cast h0q)
  have hfpq : fp ≤ fq := by rw [hfp, hfq]; exact Int.floor_le_floor hpq
  have hfple : (fp : ℚ) ≤ p := by rw [hfp]; exact Int.floor_le p
  have hfqle : (fq : ℚ) ≤ q := by rw [hfq]; exact Int.floor_le q
  have hplt : p < (fp : ℚ) + 1 := by rw [hfp]; exact Int.lt_floor_add_one p
  have hqlt : q < (fq : ℚ) + 1 := by rw [hfq]; exact Int.lt_floor_add_one q
  have hfqn : (fq : ℚ) ≤ (n : ℚ) - 1 := le_trans hfqle hq
  have hfqn' : fq ≤ (n : ℤ) - 1 := by exact_mod_cast (by push_cast; linarith : (fq : ℚ) ≤ ((n : ℤ) : ℚ) - 1)
  have hjn : fq.toNat < n := by omega
  have hγp0 : 0 ≤ p - (fp : ℚ) := by linarith
  have hγq0 : 0 ≤ q - (fq : ℚ) := by linarith
  have hγp1 : p - (fp : ℚ) ≤ 1 := by linarith
  rcases eq_or_lt_of_le hfpq with he | hlt
  · -- same interpolation cell
    rw [← he]
    by_cases hcell : fp.toNat + 1 < n
    · have hAB : s.getD fp.toNat 0 ≤ s.getD (fp.toNat + 1) 0 :=
        sorted_getD_le s hs (Nat.le_succ _) hcell
      have key : 0 ≤ (q - p) * (s.getD (fp.toNat + 1) 0 - s.getD fp.toNat 0) :=
        mul_nonneg (by linarith) (by linarith)
      nlinarith [key]
    · -- the cell is the last sample: p = q there
      have hfpn : fp = (n : ℤ) - 1 := by rw [he]; omega
      have hpq' : p = q := by
        have h1 : ((n : ℚ) - 1) ≤ p := by
          have : ((fp : ℤ) : ℚ) = ((n : ℤ) : ℚ) - 1 := by rw [hfpn]; push_cast; ring
          push_cast at this
          linarith
        linarith
      rw [hpq']
  · -- distinct cells: fp < fq
    have hij : fp.toNat + 1 ≤ fq.toNat := by omega
    have hi1n : fp.toNat + 1 < n := lt_of_le_of_lt hij hjn
    have hAB : s.getD fp.toNat 0 ≤ s.getD (fp.toNat + 1) 0 :=
      sorted_getD_le s hs (Nat.le_succ _) hi1n
    have step1 : s.getD fp.toNat 0 + (p - (fp : ℚ)) *
        (s.getD (fp.toNat + 1) 0 - s.getD fp.toNat 0) ≤ s.getD (fp.toNat + 1) 0 := by
      have key : 0 ≤ (1 - (p - (fp : ℚ))) * (s.getD (fp.toNat + 1) 0 - s.getD fp.toNat 0) :=
        mul_nonneg (by linarith) (by linarith)
      nlinarith [key]
    have step2 : s.getD (fp.toNat + 1) 0 ≤ s.getD fq.toNat 0 :=
      sorted_getD_le s hs hij hjn
    have step3 : s.getD fq.toNat 0 ≤ s.getD fq.toNat 0 + (q - (fq : ℚ)) *
        (s.getD (fq.toNat + 1) 0 - s.getD fq.toNat 0) := by
      by_cases hcell : fq.toNat + 1 < n
      · have hCD : s.getD fq.toNat 0 ≤ s.getD (fq.toNat + 1) 0 :=
          sorted_getD_le s hs (Nat.le_succ _) hcell
        nlinarith [mul_nonneg hγq0 (by linarith : (0:ℚ) ≤ s.getD (fq.toNat + 1) 0 - s.getD fq.toNat 0)]
      · have hfqn2 : fq = (n : ℤ) - 1 := by omega
        have hγq : q - (fq : ℚ) = 0 := by
          have h1 : ((fq : ℤ) : ℚ) = ((n : ℤ) : ℚ) - 1 := by rw [hfqn2]; push_cast; ring
          push_cast at h1
          linarith
        rw [hγq]
        simp
    linarith

lemma interpAt_of_all_zero {s : List ℚ} (h : ∀ y ∈ s, y = 0) (x : ℚ) :
    interpAt s x = 0 := by
  have g : ∀ k : ℕ, s.getD k 0 = 0 := by
    intro k
    rcases lt_or_ge k s.length with hk | hk
    · rw [List.getD_eq_getElem s 0 hk]
      exact h _ (List.getElem_mem hk)
    · exact List.getD_eq_default s 0 hk
  simp only [interpAt, g]
  ring

lemma np_percentile_mono (a : List ℚ) (h : a ≠ []) {p q : ℚ}
    (hp : 0 ≤ p) (hpq : p ≤ q) (hq : q ≤ 100) :
    np_percentile p a ≤ np_percentile q a := by
  have hlen : (List.insertionSort (fun x y => x ≤ y) a).length = a.length :=
    (List.perm_insertionSort _ a).length_eq
  have hn : 1 ≤ a.length := List.length_pos.mpr h
  have hn1 : (0 : ℚ) ≤ (a.length : ℚ) - 1 := by
    have : (1 : ℚ) ≤ (a.length : ℚ) := by exact_mod_cast hn
    linarith
  have hs : List.Sorted (fun x y => x ≤ y) (List.insertionSort (fun x y => x ≤ y) a) :=
    List.sorted_insertionSort _ a
  apply interpAt_le_interpAt hs
  · exact mul_nonneg (div_nonneg hp (by norm_num)) hn1
  · exact mul_le_mul_of_nonneg_right (by linarith) hn1
  · rw [hlen]
    have : q / 100 * ((a.length : ℚ) - 1) ≤ 1 * ((a.length : ℚ) - 1) :=
      mul_le_mul_of_nonneg_right (by linarith) hn1
    linarith

lemma np_percentile_replicate_zero (q : ℚ) (n : ℕ) :
    np_percentile q (List.replicate n (0 : ℚ)) = 0 := by
  apply interpAt_of_all_zero
  intro y hy
  have hmem : y ∈ List.replicate n (0 : ℚ) :=
    (List.perm_insertionSort _ _).mem_iff.mp hy
  exact List.eq_of_mem_replicate hmem

/-! ## Helper lemmas about the loop body -/

lemma charuco_ne_raw (s : String) : s ++ ".charuco.png" ≠ s ++ ".raw.png" := by
  intro h
  have h2 : (s ++ ".charuco.png").length = (s ++ ".raw.png").length := by rw [h]
  rw [String.length_append, String.length_append] at h2
  have e1 : (".charuco.png" : String).length = 12 := rfl
  have e2 : (".raw.png" : String).length = 8 := rfl
  omega

lemma detect_found_spec (draw : DrawFns) (img : Frame) (o : DetectOracle)
    {f : Frame} {tl br : Option Point}
    (h : detect_charuco_board draw img o = .ok (f, tl, br, true)) :
    ∃ c0 rest, o.charucoCorners = some (c0 :: rest) ∧ tl = some c0 ∧
      br = some ((c0 :: rest).getLast (List.cons_ne_nil c0 rest)) := by
  unfold detect_charuco_board at h
  split at h
  · split at h
    · split at h
      · split at h
        · split at h
          · simp at h
          · simp only [Except.ok.injEq, Prod.mk.injEq] at h
            exact ⟨_, _, by assumption, h.2.1.symm, h.2.2.1.symm⟩
        · simp at h
      · simp at h
    · simp at h
  · simp at h

lemma keyAndSave_raw_mem {serial : String} {raw imgF : Frame} {ci : Option Frame}
    {k1 k2 : Int} {f : Frame}
    (h : Effect.imwrite (serial ++ ".raw.png") f ∈ (keyAndSave serial raw imgF ci k1 k2).1) :
    f = raw := by
  simp only [keyAndSave, ordQ, ordS] at h
  rcases ci with _ | c
  · split at h
    · simp at h
    · split at h
      · simp at h
        exact h
      · simp at h
  · split at h
    · simp at h
    · split at h
      · simp at h
        rcases h with h | h
        · exact h
        · exact absurd h.1.symm (charuco_ne_raw serial)
      · simp at h

lemma keyAndSave_not_break {serial : String} {raw imgF : Frame} {ci : Option Frame}
    {k1 k2 : Int} (hq : pyAnd k2 (pyAnd k1 255) ≠ 113) :
    (keyAndSave serial raw imgF ci k1 k2).2 = false := by
  simp only [keyAndSave, ordQ, ordS]
  rw [if_neg hq]
  split <;> rfl

lemma keyAndSave_charuco_iff {serial : String} {raw imgF : Frame} {ci : Option Frame}
    {k1 k2 : Int} (hq : pyAnd k2 (pyAnd k1 255) ≠ 113) (hs : pyAnd k1 255 = 115) :
    (∃ f, Effect.imwrite (serial ++ ".charuco.png") f ∈ (keyAndSave serial raw imgF ci k1 k2).1) ↔
      ∃ c, ci = some c := by
  simp only [keyAndSave, ordQ, ordS]
  rw [if_neg hq, if_pos hs]
  rcases ci with _ | c
  · simp [charuco_ne_raw serial]
  · simp

lemma keyAndSave_no_write {serial : String} {raw imgF : Frame} {ci : Option Frame}
    {k1 k2 : Int} (hq : pyAnd k2 (pyAnd k1 255) ≠ 113) (hs : pyAnd k1 255 ≠ 115) :
    ∀ fn g, Effect.imwrite fn g ∉ (keyAndSave serial raw imgF ci k1 k2).1 := by
  simp only [keyAndSave, ordQ, ordS]
  rw [if_neg hq, if_neg hs]
  simp

lemma loopIter_shape {env : List String} {serial : String} {draw : DrawFns} {inp : IterInput}
    {f1 : Frame} {tl br : Option Point} {bd : Bool}
    (hg : inp.grabOk = true) (hnp : "np" ∈ env)
    (hd : detect_charuco_board draw inp.frame inp.oracle = .ok (f1, tl, br, bd)) :
    ∃ imgF, loopIter env serial draw inp =
      .ok (keyAndSave serial inp.frame imgF
        (if bd then some imgF else none) inp.key1 inp.key2) := by
  cases bd
  · refine ⟨draw.putText f1 (illuminationText (np_percentile 5 f1) (np_percentile 50 f1)
      (np_percentile 95 f1)) (20, 20), ?_⟩
    simp only [loopIter, hg, if_true, hd, illuminationStep, hnp, if_pos]
    rfl
  · rcases detect_found_spec draw inp.frame inp.oracle hd with ⟨c0, rest, hcc, htl, hbr⟩
    subst htl
    subst hbr
    simp only [loopIter, hg, if_true, hd, illuminationStep, hnp, if_pos]
    exact ⟨_, rfl⟩

lemma loopIter_effects_shape {env : List String} {serial : String} {draw : DrawFns}
    {inp : IterInput} {effs : List Effect} {brk : Bool}
    (h : loopIter env serial draw inp = .ok (effs, brk)) :
    effs = [Effect.release] ∨
      ∃ imgF ci, (effs, brk) = keyAndSave serial inp.frame imgF ci inp.key1 inp.key2 := by
  by_cases hg : inp.grabOk
  · rcases hd : detect_charuco_board draw inp.frame inp.oracle with e | ⟨f1, tl, br, bd⟩
    · simp only [loopIter, hg, if_true] at h
      rw [hd] at h
      exact absurd h (by simp)
    · by_cases hnp : "np" ∈ env
      · rcases loopIter_shape hg hnp hd with ⟨imgF, he⟩
        rw [h] at he
        right
        exact ⟨imgF, _, by injection he⟩
      · simp only [loopIter, hg, if_true] at h
        rw [hd] at h
        simp only [illuminationStep, if_neg hnp] at h
        exact absurd h (by simp)
  · simp only [Bool.not_eq_true] at hg
    rw [loopIter, if_neg (by simp [hg])] at h
    left
    injection h with h2
    exact (congrArg Prod.fst h2).symm

/-- C3: if the detector finds zero markers, or charuco interpolation yields
zero usable board corners, `detect_charuco_board` returns the not-found
outcome (flag `false`, no landmarks) and the returned frame is the input
frame unchanged. -/
theorem detect_notfound_identity (draw : DrawFns) (img : Frame) (o : DetectOracle)
    (h : (∀ ids, o.ids = some ids → ids = []) ∨
      o.charucoCorners = none ∨ o.charucoIds = none ∨ o.charucoIds = some []) :
    detect_charuco_board draw img o = .ok (img, none, none, false) := by
  rcases ho : o.ids with _ | ids
  · simp [detect_charuco_board, ho]
  · by_cases hlen : ids.length > 0
    · rcases h with h | h | h | h
      · have h2 := h ids ho
        subst h2
        simp at hlen
      · rcases hci : o.charucoIds with _ | cids <;>
          simp [detect_charuco_board, ho, hlen, h, hci]
      · rcases hc : o.charucoCorners with _ | cc <;>
          simp [detect_charuco_board, ho, hlen, h, hc]
      · rcases hc : o.charucoCorners with _ | cc <;>
          simp [detect_charuco_board, ho, hlen, h, hc]
    · simp [detect_charuco_board, ho, hlen]

theorem detect_notfound_identity_witness :
    detect_charuco_board draw0 [0] oracleNone = .ok ([0], none, none, false) :=
  detect_notfound_identity draw0 [0] oracleNone
    (Or.inl (fun ids h => by simp [oracleNone] at h))

/-- C4: whenever `detect_charuco_board` reports a found board, the
reported top-left landmark is the first element and the reported
bottom-right landmark is the last element of the charuco corner sequence
returned by the vision service, in the service's own order. -/
theorem detect_found_first_last (draw : DrawFns) (img : Frame) (o : DetectOracle)
    (f : Frame) (tl br : Option Point)
    (h : detect_charuco_board draw img o = .ok (f, tl, br, true)) :
    ∃ cc, o.charucoCorners = some cc ∧ cc ≠ [] ∧ tl = cc.head? ∧ br = cc.getLast? := by
  rcases detect_found_spec draw img o h with ⟨c0, rest, hcc, htl, hbr⟩
  refine ⟨c0 :: rest, hcc, by simp, by simp [htl], ?_⟩
  rw [List.getLast?_eq_getLast_of_ne_nil (List.cons_ne_nil c0 rest)]
  exact hbr

theorem detect_found_first_last_witness :
    ∃ cc, oracleFound.charucoCorners = some cc ∧ cc ≠ [] ∧
      (some ((1 : ℚ), (2 : ℚ)) : Option Point) = cc.head? ∧
      (some ((1 : ℚ), (2 : ℚ)) : Option Point) = cc.getLast? :=
  detect_found_first_last draw0 [0] oracleFound [0] (some (1, 2)) (some (1, 2)) (by rfl)

lemma no_cameras_msg_ne (sn : String) :
    ("No cameras found." : String) ≠ "Camera with serial number " ++ sn ++ " not found." := by
  intro h
  have h2 : ("No cameras found." : String).length =
      ("Camera with serial number " ++ sn ++ " not found.").length := by rw [h]
  rw [String.length_append, String.length_append] at h2
  have e1 : ("No cameras found." : String).length = 17 := rfl
  have e2 : ("Camera with serial number " : String).length = 26 := rfl
  have e3 : (" not found." : String).length = 11 := rfl
  omega

/-- C5 (amended): for a non-empty supplied serial, the selector returns
the unique exactly-matching device and raises the camera-not-found
`ValueError` when no device matches; with no serial supplied it raises
the no-cameras `ValueError` on an empty enumeration and otherwise
returns the first enumerated device. -/
theorem select_camera_spec :
    (∀ (devices : List DeviceInfo) (sn : String), sn ≠ "" →
      ((∀ d ∈ devices, d.serial ≠ sn) →
        select_camera_by_serial devices (some sn) =
          .error (.valueError ("Camera with serial number " ++ sn ++ " not found."))) ∧
      (∀ d ∈ devices, d.serial = sn →
        (∀ e ∈ devices, e.serial = sn → e = d) →
        select_camera_by_serial devices (some sn) = .ok (InstantCamera.mk d))) ∧
    (∀ devices : List DeviceInfo,
      (devices = [] →
        select_camera_by_serial devices none = .error (.valueError "No cameras found.")) ∧
      (∀ d rest, devices = d :: rest →
        select_camera_by_serial devices none = .ok (InstantCamera.mk d))) := by
  constructor
  · intro devices sn hsn
    constructor
    · intro hno
      have hfind : devices.find? (fun d => d.serial = sn) = none := by
        rw [List.find?_eq_none]
        intro d hd
        simp [hno d hd]
      simp only [select_camera_by_serial, if_neg hsn, hfind]
    · intro d hd hds huniq
      rcases hfind : devices.find? (fun e => e.serial = sn) with _ | e
      · rw [List.find?_eq_none] at hfind
        exact absurd (by simp [hds] : (fun e : DeviceInfo => decide (e.serial = sn)) d = true)
          (hfind d hd)
      · have hmem := List.mem_of_find?_eq_some hfind
        have hp : e.serial = sn := by simpa using List.find?_some hfind
        have : e = d := huniq e hmem hp
        subst this
        simp only [select_camera_by_serial, if_neg hsn, hfind]
  · intro devices
    constructor
    · intro h
      subst h
      rfl
    · intro d rest h
      subst h
      rfl

theorem select_camera_spec_witness :
    select_camera_by_serial [DeviceInfo.mk "A123", DeviceInfo.mk "B456"] (some "B456") =
        .ok (InstantCamera.mk (DeviceInfo.mk "B456")) ∧
    select_camera_by_serial [DeviceInfo.mk "A123", DeviceInfo.mk "B456"] (some "Z000") =
        .error (.valueError ("Camera with serial number " ++ "Z000" ++ " not found.")) ∧
    select_camera_by_serial [DeviceInfo.mk "A123", DeviceInfo.mk "B456"] none =
        .ok (InstantCamera.mk (DeviceInfo.mk "A123")) := by
  refine ⟨?_, ?_, ?_⟩
  · exact (select_camera_spec.1 [DeviceInfo.mk "A123", DeviceInfo.mk "B456"] "B456"
      (by decide)).2 (DeviceInfo.mk "B456") (by decide) (by decide) (by decide)
  · exact (select_camera_spec.1 [DeviceInfo.mk "A123", DeviceInfo.mk "B456"] "Z000"
      (by decide)).1 (by decide)
  · exact (select_camera_spec.2 [DeviceInfo.mk "A123", DeviceInfo.mk "B456"]).2
      (DeviceInfo.mk "A123") [DeviceInfo.mk "B456"] rfl

/-- C5 fails as stated: the empty string is a supplied serial matching no
device, yet the selector does not raise the camera-not-found error and
instead returns the first device (Python truthiness sends the empty
string to the no-serial branch). -/
theorem select_empty_serial_counterexample :
    (∀ d ∈ [DeviceInfo.mk "A123"], d.serial ≠ "") ∧
    select_camera_by_serial [DeviceInfo.mk "A123"] (some "") =
      .ok (InstantCamera.mk (DeviceInfo.mk "A123")) ∧
    select_camera_by_serial [DeviceInfo.mk "A123"] (some "") ≠
      .error (.valueError ("Camera with serial number " ++ "" ++ " not found.")) := by
  refine ⟨by decide, by rfl, ?_⟩
  simp [select_camera_by_serial, firstAvailableCamera]

/-- C10: supplying the empty string as the serial behaves exactly like
supplying no serial: no serial search, never the camera-not-found error;
the no-cameras error on an empty enumeration, else the first device. -/
theorem select_empty_serial_as_none (devices : List DeviceInfo) :
    select_camera_by_serial devices (some "") = select_camera_by_serial devices none ∧
    (∀ sn : String, select_camera_by_serial devices (some "") ≠
      .error (.valueError ("Camera with serial number " ++ sn ++ " not found."))) ∧
    (devices = [] → select_camera_by_serial devices (some "") =
      .error (.valueError "No cameras found.")) ∧
    (∀ d rest, devices = d :: rest →
      select_camera_by_serial devices (some "") = .ok (InstantCamera.mk d)) := by
  refine ⟨rfl, ?_, ?_, ?_⟩
  · intro sn
    rcases devices with _ | ⟨d, rest⟩
    · simp only [select_camera_by_serial, firstAvailableCamera, if_pos rfl]
      intro h
      injection h with h2
      injection h2 with h3
      exact no_cameras_msg_ne sn h3
    · simp [select_camera_by_serial, firstAvailableCamera]
  · intro h
    subst h
    rfl
  · intro d rest h
    subst h
    rfl

theorem select_empty_serial_as_none_witness :
    select_camera_by_serial [DeviceInfo.mk "A123"] (some "") =
        select_camera_by_serial [DeviceInfo.mk "A123"] none ∧
    select_camera_by_serial [DeviceInfo.mk "A123"] (some "") =
        .ok (InstantCamera.mk (DeviceInfo.mk "A123")) := by
  refine ⟨(select_empty_serial_as_none [DeviceInfo.mk "A123"]).1, ?_⟩
  exact (select_empty_serial_as_none [DeviceInfo.mk "A123"]).2.2.2
    (DeviceInfo.mk "A123") [] rfl

/-- C9: for every non-empty frame buffer the three illumination
percentiles satisfy `p5 <= p50 <= p95`; the triple is deterministic (the
computation is a pure function of the buffer); and on an all-zero frame
of any size all three percentiles are `0`. -/
theorem illumination_percentile_props (a : Frame) (h : a ≠ []) :
    (np_percentile 5 a ≤ np_percentile 50 a ∧ np_percentile 50 a ≤ np_percentile 95 a) ∧
    (np_percentile 5 a, np_percentile 50 a, np_percentile 95 a) =
      (np_percentile 5 a, np_percentile 50 a, np_percentile 95 a) ∧
    (∀ n : ℕ, 0 < n →
      np_percentile 5 (List.replicate n (0 : ℚ)) = 0 ∧
      np_percentile 50 (List.replicate n (0 : ℚ)) = 0 ∧
      np_percentile 95 (List.replicate n (0 : ℚ)) = 0) := by
  refine ⟨⟨?_, ?_⟩, rfl, ?_⟩
  · exact np_percentile_mono a h (by norm_num) (by norm_num) (by norm_num)
  · exact np_percentile_mono a h (by norm_num) (by norm_num) (by norm_num)
  · intro n _
    exact ⟨np_percentile_replicate_zero 5 n, np_percentile_replicate_zero 50 n,
      np_percentile_replicate_zero 95 n⟩

theorem illumination_percentile_props_witness :
    (np_percentile 5 [(3 : ℚ), 1, 2] ≤ np_percentile 50 [(3 : ℚ), 1, 2] ∧
      np_percentile 50 [(3 : ℚ), 1, 2] ≤ np_percentile 95 [(3 : ℚ), 1, 2]) ∧
    np_percentile 5 (List.replicate 4 (0 : ℚ)) = 0 := by
  have h := illumination_percentile_props [(3 : ℚ), 1, 2] (by simp)
  exact ⟨h.1, (h.2.2 4 (by norm_num)).1⟩

/-- A failed grab (with the s key pressed that tick). -/
def inpFail : IterInput :=
  { grabOk := false, frame := [], oracle := oracleNone, key1 := 115, key2 := -1 }

/-- A successful grab with no board, the s key in the first poll and no
second key. -/
def inpS115 : IterInput :=
  { grabOk := true, frame := [0], oracle := oracleNone, key1 := 115, key2 := -1 }

/-- A successful grab with a detected board, the s key in the first poll
and no second key. -/
def inpSFound : IterInput :=
  { grabOk := true, frame := [0], oracle := oracleFound, key1 := 115, key2 := -1 }

/-- A successful grab with a detected board, the s key in the first poll
and the q key in the second poll. -/
def inpSQ : IterInput :=
  { grabOk := true, frame := [0], oracle := oracleFound, key1 := 115, key2 := 113 }

/-- C1 fails on the code: `main.py` never imports numpy (its imports are
`cv2`, `pylon`, `sys`), yet line 120 evaluates `np.percentile`, so the
illumination step raises `NameError` on every frame, and every
successful-grab iteration aborts there rather than drawing the overlay. -/
theorem illumination_step_missing_numpy :
    ("np" ∉ mainImports) ∧
    (∀ img : Frame, illuminationStep mainImports img = .error (.nameError "np")) ∧
    loopIter mainImports "cam0" draw0 (inpQ (-1)) = .error (.nameError "np") := by
  have hnp : ("np" ∈ mainImports) = False := by simp [mainImports]
  refine ⟨by decide, ?_, ?_⟩
  · intro img
    simp [illuminationStep, hnp]
  · simp [loopIter, keyAndSave, detect_charuco_board, illuminationStep, inpQ, oracleNone,
      draw0, hnp, ordQ, ordS]

/-- C2: any buffer the loop body writes to `<serial>.raw.png` is exactly
the frame as it stood right after format conversion — the raw copy taken
before `detect_charuco_board` and before any overlay, which no
annotation mutates (the theorem is quantified over all drawing
behaviours). -/
theorem raw_save_is_preannotation_buffer (env : List String) (serial : String)
    (draw : DrawFns) (inp : IterInput) (effs : List Effect) (brk : Bool) (f : Frame)
    (h1 : loopIter env serial draw inp = .ok (effs, brk))
    (h2 : Effect.imwrite (serial ++ ".raw.png") f ∈ effs) :
    f = inp.frame := by
  rcases loopIter_effects_shape h1 with he | ⟨imgF, ci, he⟩
  · subst he
    simp at h2
  · have heff : effs = (keyAndSave serial inp.frame imgF ci inp.key1 inp.key2).1 := by
      rw [← he]
    exact keyAndSave_raw_mem (heff ▸ h2)

theorem raw_save_is_preannotation_buffer_witness : ([0] : Frame) = inpS115.frame := by
  have h1 : pyAnd 115 255 = 115 := by decide
  have h2 : pyAnd (-1) 115 = 115 := by decide
  refine raw_save_is_preannotation_buffer intendedImports "cam0" draw0 inpS115
    [Effect.imshow ("Basler Camera " ++ "cam0") [0],
     Effect.imwrite ("cam0" ++ ".raw.png") [0],
     Effect.printed ("Saved raw image to " ++ ("cam0" ++ ".raw.png")), Effect.release]
    false [0] ?_ (by simp)
  norm_num [loopIter, keyAndSave, detect_charuco_board, illuminationStep, inpS115, oracleNone,
    draw0, intendedImports, mainImports, ordQ, ordS, h1, h2]

/-- C7: on a failed grab the iteration performs no detection, no
annotation, no display update and no save — its only effect is releasing
the grab result — even when the s key was pressed that tick; the loop
then continues, and the remaining schedule is processed exactly as it
would have been on its own. -/
theorem grab_failure_skips_iteration (env : List String) (serial : String) (draw : DrawFns)
    (inp : IterInput) (rest : List IterInput) (h : inp.grabOk = false) :
    loopIter env serial draw inp = .ok ([Effect.release], false) ∧
    runLoop env serial draw (inp :: rest) =
      Except.map (fun effs => Effect.release :: effs) (runLoop env serial draw rest) := by
  have h1 : loopIter env serial draw inp = .ok ([Effect.release], false) := by
    rw [loopIter, if_neg (by simp [h])]
  refine ⟨h1, ?_⟩
  simp only [runLoop, h1]
  rfl

theorem grab_failure_skips_iteration_witness :
    loopIter intendedImports "cam0" draw0 inpFail = .ok ([Effect.release], false) ∧
    runLoop intendedImports "cam0" draw0 [inpFail] =
      Except.map (fun effs => Effect.release :: effs)
        (runLoop intendedImports "cam0" draw0 []) :=
  grab_failure_skips_iteration intendedImports "cam0" draw0 inpFail [] rfl

/-- C6 fails on the code: lines 143-145 poll `cv2.waitKey` twice per
iteration and test `waitKey(1) & key == ord('q')`.  With the q key in
the first poll and the a key (97) in the second, `97 & 113 = 97` and the
loop does not stop; it stops in the common case where the second poll
reports no key (`-1 & 113 = 113`), and then the stop/close effects run
and no further frames are processed. -/
theorem quit_key_needs_second_poll :
    pyAnd (inpQ 97).key1 255 = 113 ∧
    loopIter intendedImports "cam0" draw0 (inpQ 97) =
      .ok ([Effect.imshow ("Basler Camera " ++ "cam0") [0], Effect.release], false) ∧
    loopIter intendedImports "cam0" draw0 (inpQ (-1)) =
      .ok ([Effect.imshow ("Basler Camera " ++ "cam0") [0]], true) ∧
    runLoop intendedImports "cam0" draw0 [inpQ (-1), inpQ (-1)] =
      .ok [Effect.imshow ("Basler Camera " ++ "cam0") [0],
        Effect.stopGrabbing, Effect.destroyAllWindows] := by
  have h1 : pyAnd 113 255 = 113 := by decide
  have h2 : pyAnd 97 113 = 97 := by decide
  have h3 : pyAnd (-1) 113 = 113 := by decide
  have e1 : loopIter intendedImports "cam0" draw0 (inpQ 97) =
      .ok ([Effect.imshow ("Basler Camera " ++ "cam0") [0], Effect.release], false) := by
    norm_num [loopIter, keyAndSave, detect_charuco_board, illuminationStep, inpQ, oracleNone,
      draw0, intendedImports, mainImports, ordQ, ordS, h1, h2]
  have e2 : loopIter intendedImports "cam0" draw0 (inpQ (-1)) =
      .ok ([Effect.imshow ("Basler Camera " ++ "cam0") [0]], true) := by
    norm_num [loopIter, keyAndSave, detect_charuco_board, illuminationStep, inpQ, oracleNone,
      draw0, intendedImports, mainImports, ordQ, ordS, h1, h3]
  refine ⟨by decide, e1, e2, ?_⟩
  simp only [runLoop, e2]
  rfl

/-- C8 as stated fails: with a successful grab, a detected board and the
s key in the first poll, the q key arriving in the second poll makes
`waitKey(1) & key` equal `ord('q')` (since `113 & 115 = 113`), so the
iteration breaks out of the loop and writes neither file even though a
board was detected and s was read. -/
theorem save_key_quit_interference :
    detect_charuco_board draw0 inpSQ.frame inpSQ.oracle =
      .ok ([0], some (1, 2), some (1, 2), true) ∧
    pyAnd inpSQ.key1 255 = 115 ∧
    loopIter intendedImports "cam0" draw0 inpSQ =
      .ok ([Effect.imshow ("Basler Camera " ++ "cam0") [0]], true) := by
  have h1 : pyAnd 115 255 = 115 := by decide
  have h2 : pyAnd 113 115 = 113 := by decide
  refine ⟨by rfl, by decide, ?_⟩
  norm_num [loopIter, keyAndSave, detect_charuco_board, illuminationStep, inpSQ, oracleFound,
    draw0, intendedImports, mainImports, ordQ, ordS, h1, h2]

/-- C8 (amended): in a successful-grab iteration in which the exit test
of line 145 does not fire, `<serial>.charuco.png` is written iff the s
key was read and a board was detected in that same iteration; the
annotated-frame reference is reset each iteration, so whether it is
written depends only on this iteration's detection outcome; any key
other than s (and not firing the exit test) writes nothing; and the loop
does not break. -/
theorem charuco_save_iff_detected (env : List String) (serial : String) (draw : DrawFns)
    (inp : IterInput) (f1 : Frame) (tl br : Option Point) (bd : Bool)
    (hg : inp.grabOk = true) (hnp : "np" ∈ env)
    (hd : detect_charuco_board draw inp.frame inp.oracle = .ok (f1, tl, br, bd))
    (hq : pyAnd inp.key2 (pyAnd inp.key1 255) ≠ 113) :
    ∃ effs, loopIter env serial draw inp = .ok (effs, false) ∧
      (pyAnd inp.key1 255 = 115 →
        ((∃ f, Effect.imwrite (serial ++ ".charuco.png") f ∈ effs) ↔ bd = true)) ∧
      (pyAnd inp.key1 255 ≠ 115 → ∀ fn g, Effect.imwrite fn g ∉ effs) := by
  rcases loopIter_shape hg hnp hd with ⟨imgF, he⟩
  have hb := @keyAndSave_not_break serial inp.frame imgF
    (if bd then some imgF else none) inp.key1 inp.key2 hq
  refine ⟨(keyAndSave serial inp.frame imgF
    (if bd then some imgF else none) inp.key1 inp.key2).1, ?_, ?_, ?_⟩
  · rw [he]
    have hK : ((keyAndSave serial inp.frame imgF
        (if bd then some imgF else none) inp.key1 inp.key2).1, false) =
        keyAndSave serial inp.frame imgF
          (if bd then some imgF else none) inp.key1 inp.key2 := by
      rw [← hb]
    rw [hK]
  · intro hs
    rw [@keyAndSave_charuco_iff serial inp.frame imgF
      (if bd then some imgF else none) inp.key1 inp.key2 hq hs]
    cases bd <;> simp
  · intro hs
    exact @keyAndSave_no_write serial inp.frame imgF
      (if bd then some imgF else none) inp.key1 inp.key2 hq hs

theorem charuco_save_iff_detected_witness :
    ∃ effs, loopIter intendedImports "cam0" draw0 inpSFound = .ok (effs, false) ∧
      (pyAnd inpSFound.key1 255 = 115 →
        ((∃ f, Effect.imwrite ("cam0" ++ ".charuco.png") f ∈ effs) ↔ true = true)) ∧
      (pyAnd inpSFound.key1 255 ≠ 115 → ∀ fn g, Effect.imwrite fn g ∉ effs) :=
  charuco_save_iff_detected intendedImports "cam0" draw0 inpSFound [0]
    (some (1, 2)) (some (1, 2)) true rfl (by decide) (by rfl) (by decide)
